import Mathlib

/-!
Verification model of `src/camera_tester.cpp` (a minimal multi-camera test
harness).  The C++ code consists of a per-device driver class `MiniDriver`
(state machine + capture worker thread) and a `main` that rotates two fixed
groups of four drivers on a timer.

Modelling conventions:
* `int64_t` frame numbers and counters are modelled as `Int` (the claims never
  exercise 64-bit overflow, which is unreachable in the quantities involved).
* wall-clock times and the `double`/`float` FPS arithmetic are modelled over
  `ℚ`; the one floating-point comparison a claim depends on
  (`time_since_last_log.count() > 1` at exactly `1.0`) is exact in IEEE
  doubles, so the rational model is faithful at that point.
* the worker thread of a driver is modelled by the outcome its run would
  produce (`WorkerOutcome`); `std::thread::joinable()` becomes
  `worker ≠ none`, and joining a thread applies its final state write.
-/

namespace CameraTester

/-- The `MiniDriver::State` enum (camera_tester.cpp lines 46-52). -/
inductive State where
  | off
  | starting
  | running
  | error
deriving DecidableEq, Repr

/-- Behaviour of one spawned capture worker (`MiniDriver::run`, lines
103-121), as determined by the device environment:
* `openFail`  — `reset()`/`pipeline.start(config)` throws; `run` catches and
  sets `STATE_ERROR` (lines 110-120) and the thread exits.
* `runThenExit` — the pipeline opens, the loop runs until
  `interrupt_requested_` is observed, then `pipeline.stop()` and
  `state_ = STATE_OFF` (lines 195-196).
* `midError` — the pipeline opens (state reaches `STATE_RUNNING`, line 147)
  but a later device call throws (e.g. `wait_for_frames` timeout); `run`
  catches and sets `STATE_ERROR`. -/
inductive WorkerOutcome where
  | openFail
  | runThenExit
  | midError
deriving DecidableEq, Repr

/-- The state the worker's final write leaves behind once the thread has
exited (joined): lines 110-120 write `STATE_ERROR` on any exception, line 196
writes `STATE_OFF` on a normal interrupt-driven exit. -/
def workerFinalState : WorkerOutcome → State
  | .openFail => .error
  | .runThenExit => .off
  | .midError => .error

/-- The first state other than `STATE_STARTING` that the worker reaches: on
an open failure `run` jumps to the catch block (`STATE_ERROR`); otherwise
`run_unsafe` reaches line 147 (`state_ = STATE_RUNNING`).  This is the state
the polling loop of `start(block_until_ready=true)` (lines 67-70) observes
when it exits. -/
def workerReadyState : WorkerOutcome → State
  | .openFail => .error
  | .runThenExit => .running
  | .midError => .running

/-- One `MiniDriver` object (fields at lines 199-202).  `worker = some o`
models a joinable `thread_` whose run behaves as `o`; `worker = none` models
a default-constructed or already-joined `thread_`. -/
structure Driver where
  serial : String
  state : State
  worker : Option WorkerOutcome
  interruptRequested : Bool
deriving DecidableEq, Repr

/-- The constructor (line 54): `interrupt_requested_(false), state_(STATE_OFF)`,
no thread spawned yet. -/
def initDriver (serial : String) : Driver :=
  { serial := serial, state := .off, worker := none, interruptRequested := false }

/-- `MiniDriver::is_running` (line 57). -/
def isRunning (d : Driver) : Bool :=
  d.state = .running

/-- `MiniDriver::stop` (lines 75-83): if `thread_.joinable()` set
`interrupt_requested_`, join the thread (its final state write takes effect,
= `workerFinalState`), clear the flag.  Otherwise do nothing. -/
def stop (d : Driver) : Driver :=
  match d.worker with
  | none => d
  | some o =>
      { d with state := workerFinalState o, worker := none, interruptRequested := false }

/-- `MiniDriver::start` with the default `block_until_ready = true`
(lines 59-73): first `stop()`, then `state_ = STATE_STARTING`, spawn the
worker, and poll until the state leaves `STATE_STARTING`; the state then
observed is `workerReadyState o`. -/
def start (d : Driver) (o : WorkerOutcome) : Driver :=
  let d0 := stop d
  let d1 := { d0 with state := State.starting }
  let d2 := { d1 with worker := some o }
  { d2 with state := workerReadyState o }

/-! ### Capture-loop frame accounting (`run_unsafe`, lines 149-193) -/

/-- The loop locals of `run_unsafe`: `last_frame_number` and `frame_counter`
(lines 155-156), both `int64_t`. -/
structure CaptureLocals where
  lastFrameNumber : Int
  frameCounter : Int
deriving DecidableEq, Repr

/-- Their initialisation (lines 155-156). -/
def initCaptureLocals : CaptureLocals :=
  { lastFrameNumber := 0, frameCounter := 0 }

/-- Processing of one observed depth-frame sequence number (lines 181-192).
The second component is the number of "Frame number reset" anomaly log lines
emitted (line 189). -/
def processFrame (s : CaptureLocals) (newFrameNumber : Int) : CaptureLocals × Nat :=
  if newFrameNumber > s.lastFrameNumber then
    ({ lastFrameNumber := newFrameNumber, frameCounter := s.frameCounter + 1 }, 0)
  else if newFrameNumber < s.lastFrameNumber then
    ({ lastFrameNumber := newFrameNumber, frameCounter := s.frameCounter }, 1)
  else
    ({ lastFrameNumber := newFrameNumber, frameCounter := s.frameCounter }, 0)

/-- Lines 177-179: a frameset without a depth frame (`if (!fd) continue;`)
leaves the locals untouched and logs nothing. -/
def processFrameset (s : CaptureLocals) : Option Int → CaptureLocals × Nat
  | none => (s, 0)
  | some n => processFrame s n

/-- Result of one execution of the throttled-log block (lines 162-175). -/
structure ThrottleResult where
  fired : Bool
  fps : Option ℚ
  frameCounter : Int
  tpLastLogged : ℚ
deriving DecidableEq, Repr

/-- The throttled FPS log (lines 162-175): when `now - tp_last_logged`
exceeds 1 second, log `frame_counter / elapsed`, zero the counter and move
the timer to `now`; otherwise nothing happens.  Times are seconds as `ℚ`
(the C++ `double` comparison `count() > 1` is exact at the points used
here). -/
def throttleStep (frameCounter : Int) (tpLastLogged now : ℚ) : ThrottleResult :=
  let elapsed := now - tpLastLogged
  if elapsed > 1 then
    { fired := true
      fps := some ((frameCounter : ℚ) / elapsed)
      frameCounter := 0
      tpLastLogged := now }
  else
    { fired := false
      fps := none
      frameCounter := frameCounter
      tpLastLogged := tpLastLogged }

/-! ### The fleet rotation loop (`main`, lines 206-263)

`main` builds one driver per enumerated device, starts drivers 0..3, and in
an endless loop — once the rotation interval has elapsed — stops one group
of four and starts the other.  The branch taken depends on `toggle`; line
257 reads `toggle != toggle;`, an equality comparison whose result is
discarded, so `toggle` keeps its initial value `true` forever.  We model the
loop body at the granularity of single driver calls (`Op`), so that the
fleet state "at any instant" is the state after some prefix of the emitted
call sequence. -/

/-- One driver call made by `main`, on the driver at a given index. -/
inductive Op where
  | stopD : Fin 8 → Op
  | startD : Fin 8 → WorkerOutcome → Op

/-- Index of the driver an operation touches. -/
def opIndex : Op → Fin 8
  | .stopD i => i
  | .startD i _ => i

/-- Effect of one driver call on the fleet. -/
def applyOp (f : Fin 8 → Driver) : Op → (Fin 8 → Driver)
  | .stopD i => Function.update f i (stop (f i))
  | .startD i o => Function.update f i (start (f i) o)

/-- Effect of a sequence of driver calls, first to last. -/
def applyOps (f : Fin 8 → Driver) (ops : List Op) : Fin 8 → Driver :=
  ops.foldl applyOp f

/-- Group A: drivers 0..3 (the loops at lines 223-226, 236-239, 251-254). -/
def groupA : List (Fin 8) := [0, 1, 2, 3]

/-- Group B: drivers 4..7 (the loops at lines 240-243, 247-250). -/
def groupB : List (Fin 8) := [4, 5, 6, 7]

/-- Device environment for one round of starts: the worker outcome each
started driver's run will have. -/
abbrev Env := Fin 8 → WorkerOutcome

/-- The initial start of group A (lines 223-226). -/
def startupOps (e : Env) : List Op :=
  groupA.map (fun i => Op.startD i (e i))

/-- The driver calls of one rotation-loop body once the interval has
elapsed (lines 234-255): with `toggle` true, stop 0..3 then start 4..7;
otherwise stop 4..7 then start 0..3. -/
def rotationOps (t : Bool) (e : Env) : List Op :=
  if t then groupA.map Op.stopD ++ groupB.map (fun i => Op.startD i (e i))
  else groupB.map Op.stopD ++ groupA.map (fun i => Op.startD i (e i))

/-- Driver calls of a sequence of elapsed rotation intervals.  The toggle
is passed through unchanged: line 257 (`toggle != toggle;`) compares and
discards, it does not assign. -/
def ticksOps : Bool → List Env → List Op
  | _, [] => []
  | t, e :: es => rotationOps t e ++ ticksOps t es

/-- All driver calls `main` makes, given the environments of the initial
start and of each later rotation tick: the startup of group A, then every
rotation body with `toggle` stuck at its initial value `true`. -/
def mainOps : List Env → List Op
  | [] => []
  | e :: es => startupOps e ++ ticksOps true es

/-- The fleet right after construction (lines 208-214): every driver OFF
with no worker, serial as enumerated. -/
def initFleet (sn : Fin 8 → String) : Fin 8 → Driver :=
  fun i => initDriver (sn i)

/-- Fleet-loop state: the drivers and the `toggle` flag (line 220). -/
structure FleetState where
  drivers : Fin 8 → Driver
  toggle : Bool

/-- Fleet state once `main` has started group A (line 226 done). -/
def fleetStartup (sn : Fin 8 → String) (e : Env) : FleetState :=
  { drivers := applyOps (initFleet sn) (startupOps e), toggle := true }

/-- One elapsed rotation interval (loop body, lines 234-258).  The final
`toggle != toggle;` statement (line 257) has no effect, so the toggle field
is returned unchanged. -/
def rotationTick (s : FleetState) (e : Env) : FleetState :=
  { drivers := applyOps s.drivers (rotationOps s.toggle e), toggle := s.toggle }

/-! ### Indices accessed by `main` (for the bounds precondition) -/

/-- Indices of the initial start loop `for (i=0;i<4)` (lines 223-226). -/
def initialStartIndices : List ℕ := List.range 4

/-- Indices `0..3` used by the rotation bodies (lines 236-239, 251-254). -/
def rotationLowIndices : List ℕ := List.range 4

/-- Indices `4..7` used by the rotation bodies `for (i=4;i<8)`
(lines 240-243, 247-250). -/
def rotationHighIndices : List ℕ := List.range' 4 4

/-- Every index at which `main` subscripts the `drivers` vector: the initial
start, the `toggle` branch (stop 0..3, start 4..7) and the other branch
(stop 4..7, start 0..3). -/
def mainAccessedIndices : List ℕ :=
  initialStartIndices ++ (rotationLowIndices ++ rotationHighIndices) ++
    (rotationHighIndices ++ rotationLowIndices)

/-! ### The rotation-exclusivity invariant

The states a driver can be left in between lifecycle calls. `inactive`
means not RUNNING and not STARTING, i.e. OFF or ERROR. -/

/-- A driver that is neither RUNNING nor STARTING. -/
def inactive (d : Driver) : Prop :=
  d.state = State.off ∨ d.state = State.error

/-- Every driver of the index group is inactive. -/
def allInactive (f : Fin 8 → Driver) (g : List (Fin 8)) : Prop :=
  ∀ i ∈ g, inactive (f i)

/-- At most one of the two fixed groups has drivers RUNNING or STARTING:
the whole other group is OFF or ERROR. -/
def exclusiveGroups (f : Fin 8 → Driver) : Prop :=
  allInactive f groupA ∨ allInactive f groupB

/-- Per-driver structural invariant of the model: a driver without a stored
worker thread is OFF or ERROR (its last worker's final write, or the initial
OFF). -/
def dInv (d : Driver) : Prop :=
  d.worker = none → inactive d

/-- The per-driver invariant, over the whole fleet. -/
def fleetWInv (f : Fin 8 → Driver) : Prop :=
  ∀ i, dInv (f i)

/-! ### Thread-event accounting for the one-worker-per-driver invariant

`std::thread` creation and `join` are the only operations on `thread_`
(lines 64, 77-80).  To state "at most one live worker per driver" we record
the spawn/join events a sequence of `start`/`stop` calls performs, in order,
and count live workers along every prefix of that event trace. -/

/-- A thread-lifetime event of one driver: `spawn` = line 64
(`thread_ = std::thread(...)`), `join` = line 80 (`thread_.join()`). -/
inductive ThreadEv where
  | spawn
  | join
deriving DecidableEq, Repr

/-- Contribution of one event to the number of live workers. -/
def evDelta : ThreadEv → Int
  | .spawn => 1
  | .join => -1

/-- Net number of live workers created by a list of events. -/
def liveWorkers (es : List ThreadEv) : Int :=
  (es.map evDelta).sum

/-- Events performed by `stop` (lines 75-83): a join exactly when the thread
is joinable. -/
def stopEvents (d : Driver) : List ThreadEv :=
  match d.worker with
  | none => []
  | some _ => [.join]

/-- Events performed by `start` (lines 59-73): the events of its initial
`stop()` call, then one spawn. -/
def startEvents (d : Driver) : List ThreadEv :=
  stopEvents d ++ [.spawn]

/-- A lifecycle call a caller can make on one driver. -/
inductive DriverCall where
  | callStart : WorkerOutcome → DriverCall
  | callStop : DriverCall
deriving DecidableEq, Repr

/-- Driver state after one lifecycle call. -/
def applyCall (d : Driver) : DriverCall → Driver
  | .callStart o => start d o
  | .callStop => stop d

/-- Thread events performed by one lifecycle call. -/
def callEvents (d : Driver) : DriverCall → List ThreadEv
  | .callStart _ => startEvents d
  | .callStop => stopEvents d

/-- Thread events of a whole sequence of lifecycle calls, in order. -/
def traceEvents (d : Driver) : List DriverCall → List ThreadEv
  | [] => []
  | c :: cs => callEvents d c ++ traceEvents (applyCall d c) cs

/-- Number of live workers recorded in a driver value (0 or 1, since the
model stores the single `thread_` member). -/
def workerCount (d : Driver) : Int :=
  match d.worker with
  | none => 0
  | some _ => 1

lemma liveWorkers_append (a b : List ThreadEv) :
    liveWorkers (a ++ b) = liveWorkers a + liveWorkers b := by
  simp [liveWorkers]

lemma workerCount_applyCall (d : Driver) (c : DriverCall) :
    workerCount (applyCall d c) = workerCount d + liveWorkers (callEvents d c) := by
  cases c <;> rcases hw : d.worker with _ | o <;>
    simp [applyCall, callEvents, startEvents, stopEvents, workerCount, start, stop,
      liveWorkers, evDelta, hw]

lemma call_bound (d : Driver) (c : DriverCall) (n : ℕ) :
    workerCount d + liveWorkers ((callEvents d c).take n) ≤ 1 := by
  cases c <;> rcases hw : d.worker with _ | o <;>
    rcases n with _ | _ | n <;>
    simp [callEvents, startEvents, stopEvents, workerCount, liveWorkers, evDelta, hw,
      List.take]

lemma trace_bound : ∀ (cs : List DriverCall) (d : Driver) (n : ℕ),
    workerCount d + liveWorkers ((traceEvents d cs).take n) ≤ 1
  | [], d, n => by
      have : workerCount d ≤ 1 := by
        rcases hw : d.worker with _ | o <;> simp [workerCount, hw]
      simpa [traceEvents, liveWorkers] using this
  | c :: cs, d, n => by
      rw [traceEvents, List.take_append_eq_append_take, liveWorkers_append]
      by_cases h : n ≤ (callEvents d c).length
      · have hz : n - (callEvents d c).length = 0 := Nat.sub_eq_zero_of_le h
        rw [hz]
        simpa [liveWorkers] using call_bound d c n
      · have hfull : (callEvents d c).take n = callEvents d c :=
          List.take_of_length_le (le_of_not_le h)
        rw [hfull, ← add_assoc, ← workerCount_applyCall]
        exact trace_bound cs (applyCall d c) (n - (callEvents d c).length)

/-! ### Lemmas for the rotation-exclusivity invariant -/

lemma inactive_stop (d : Driver) (h : dInv d) : inactive (stop d) := by
  rcases hw : d.worker with _ | o
  · simpa [stop, hw] using h hw
  · cases o <;> simp [stop, hw, workerFinalState, inactive]

lemma dInv_stop (d : Driver) (h : dInv d) : dInv (stop d) :=
  fun _ => inactive_stop d h

lemma dInv_start (d : Driver) (o : WorkerOutcome) : dInv (start d o) := by
  intro hw
  simp [start] at hw

lemma fleetWInv_applyOp (f : Fin 8 → Driver) (op : Op) (h : fleetWInv f) :
    fleetWInv (applyOp f op) := by
  intro i
  cases op with
  | stopD j =>
      by_cases hij : i = j
      · subst hij
        simpa [applyOp] using dInv_stop (f i) (h i)
      · simpa [applyOp, Function.update_noteq hij] using h i
  | startD j o =>
      by_cases hij : i = j
      · subst hij
        simpa [applyOp] using dInv_start (f i) o
      · simpa [applyOp, Function.update_noteq hij] using h i

lemma fleetWInv_applyOps (ops : List Op) : ∀ (f : Fin 8 → Driver),
    fleetWInv f → fleetWInv (applyOps f ops) := by
  induction ops with
  | nil => intro f h; simpa [applyOps] using h
  | cons op ops ih =>
      intro f h
      have h1 := fleetWInv_applyOp f op h
      simpa [applyOps] using ih (applyOp f op) h1

lemma applyOps_append (f : Fin 8 → Driver) (a b : List Op) :
    applyOps f (a ++ b) = applyOps (applyOps f a) b := by
  simp [applyOps, List.foldl_append]

lemma applyOp_untouched (f : Fin 8 → Driver) (op : Op) (i : Fin 8)
    (h : opIndex op ≠ i) : applyOp f op i = f i := by
  cases op with
  | stopD j =>
      have hj : i ≠ j := fun he => h (by simp [opIndex, he])
      simp [applyOp, Function.update_noteq hj]
  | startD j o =>
      have hj : i ≠ j := fun he => h (by simp [opIndex, he])
      simp [applyOp, Function.update_noteq hj]

lemma applyOps_untouched (ops : List Op) : ∀ (f : Fin 8 → Driver) (i : Fin 8),
    (∀ op ∈ ops, opIndex op ≠ i) → applyOps f ops i = f i := by
  induction ops with
  | nil => intro f i _; rfl
  | cons op ops ih =>
      intro f i h
      have h1 : applyOps f (op :: ops) i = applyOps (applyOp f op) ops i := by
        simp [applyOps]
      rw [h1, ih (applyOp f op) i (fun o ho => h o (List.mem_cons_of_mem op ho)),
        applyOp_untouched f op i (h op (List.mem_cons_self op ops))]

lemma allInactive_untouched (ops : List Op) (f : Fin 8 → Driver) (g : List (Fin 8))
    (h : ∀ op ∈ ops, opIndex op ∉ g) (ha : allInactive f g) :
    allInactive (applyOps f ops) g := by
  intro i hi
  rw [applyOps_untouched ops f i (fun op hop he => h op hop (he ▸ hi))]
  exact ha i hi

lemma allInactive_applyOp_stopD (f : Fin 8 → Driver) (j : Fin 8) (g : List (Fin 8))
    (hW : fleetWInv f) (ha : allInactive f g) :
    allInactive (applyOp f (Op.stopD j)) g := by
  intro i hi
  by_cases hij : i = j
  · subst hij
    simpa [applyOp] using inactive_stop (f i) (hW i)
  · simpa [applyOp, Function.update_noteq hij] using ha i hi

lemma allInactive_stopsList (l : List (Fin 8)) : ∀ (f : Fin 8 → Driver) (g : List (Fin 8)),
    fleetWInv f → allInactive f g → allInactive (applyOps f (l.map Op.stopD)) g := by
  induction l with
  | nil => intro f g _ ha; simpa [applyOps] using ha
  | cons j l ih =>
      intro f g hW ha
      have h1 : applyOps f ((j :: l).map Op.stopD) =
          applyOps (applyOp f (Op.stopD j)) (l.map Op.stopD) := by
        simp [applyOps]
      rw [h1]
      exact ih (applyOp f (Op.stopD j)) g (fleetWInv_applyOp f _ hW)
        (allInactive_applyOp_stopD f j g hW ha)

lemma stops_make_inactive (l : List (Fin 8)) : ∀ (f : Fin 8 → Driver),
    fleetWInv f → ∀ i ∈ l, inactive (applyOps f (l.map Op.stopD) i) := by
  induction l with
  | nil => intro f _ i hi; cases hi
  | cons j l ih =>
      intro f hW i hi
      have h1 : applyOps f ((j :: l).map Op.stopD) =
          applyOps (applyOp f (Op.stopD j)) (l.map Op.stopD) := by
        simp [applyOps]
      rw [h1]
      rcases List.mem_cons.mp hi with he | hm
      · subst he
        by_cases hm2 : i ∈ l
        · exact ih (applyOp f (Op.stopD i)) (fleetWInv_applyOp f _ hW) i hm2
        · rw [applyOps_untouched (l.map Op.stopD) (applyOp f (Op.stopD i)) i
            (by
              intro op hop
              rcases List.mem_map.mp hop with ⟨j2, hj2, rfl⟩
              exact fun he2 => hm2 (he2 ▸ hj2))]
          simpa [applyOp] using inactive_stop (f i) (hW i)
      · exact ih (applyOp f (Op.stopD j)) (fleetWInv_applyOp f _ hW) i hm

lemma exclusive_stopsList (l : List (Fin 8)) (f : Fin 8 → Driver)
    (hW : fleetWInv f) (hI : exclusiveGroups f) :
    exclusiveGroups (applyOps f (l.map Op.stopD)) := by
  rcases hI with h | h
  · exact Or.inl (allInactive_stopsList l f groupA hW h)
  · exact Or.inr (allInactive_stopsList l f groupB hW h)

lemma phase_take_exclusive (gStop : List (Fin 8)) (s₂ : List Op) (f : Fin 8 → Driver)
    (hW : fleetWInv f) (hI : exclusiveGroups f) (n : ℕ)
    (hs₂ : ∀ op ∈ s₂, opIndex op ∉ gStop)
    (hgrp : ∀ h : Fin 8 → Driver, allInactive h gStop → exclusiveGroups h) :
    exclusiveGroups (applyOps f ((gStop.map Op.stopD ++ s₂).take n)) := by
  rw [List.take_append_eq_append_take, applyOps_append]
  by_cases hn : n ≤ (gStop.map Op.stopD).length
  · rw [Nat.sub_eq_zero_of_le hn, List.take_zero]
    have hmt : (gStop.map Op.stopD).take n = (gStop.take n).map Op.stopD := by
      rw [List.map_take]
    rw [hmt]
    exact exclusive_stopsList (gStop.take n) f hW hI
  · rw [List.take_of_length_le (le_of_not_le hn)]
    have hstops : allInactive (applyOps f (gStop.map Op.stopD)) gStop :=
      stops_make_inactive gStop f hW
    have htake : ∀ op ∈ s₂.take (n - (gStop.map Op.stopD).length), opIndex op ∉ gStop :=
      fun op hop => hs₂ op (List.mem_of_mem_take hop)
    exact hgrp _ (allInactive_untouched _ _ gStop htake hstops)

lemma rotation_take_exclusive (t : Bool) (e : Env) (f : Fin 8 → Driver)
    (hW : fleetWInv f) (hI : exclusiveGroups f) (n : ℕ) :
    exclusiveGroups (applyOps f ((rotationOps t e).take n)) := by
  cases t with
  | true =>
      rw [show rotationOps true e =
          groupA.map Op.stopD ++ groupB.map (fun i => Op.startD i (e i)) from rfl]
      refine phase_take_exclusive groupA _ f hW hI n ?_ (fun h ha => Or.inl ha)
      intro op hop
      rcases List.mem_map.mp hop with ⟨j, hj, rfl⟩
      simpa [opIndex] using (by decide : ∀ i ∈ groupB, i ∉ groupA) j hj
  | false =>
      rw [show rotationOps false e =
          groupB.map Op.stopD ++ groupA.map (fun i => Op.startD i (e i)) from rfl]
      refine phase_take_exclusive groupB _ f hW hI n ?_ (fun h ha => Or.inr ha)
      intro op hop
      rcases List.mem_map.mp hop with ⟨j, hj, rfl⟩
      simpa [opIndex] using (by decide : ∀ i ∈ groupA, i ∉ groupB) j hj

lemma rotation_full_exclusive (t : Bool) (e : Env) (f : Fin 8 → Driver)
    (hW : fleetWInv f) (hI : exclusiveGroups f) :
    exclusiveGroups (applyOps f (rotationOps t e)) := by
  have h := rotation_take_exclusive t e f hW hI (rotationOps t e).length
  rwa [List.take_length] at h

lemma ticks_take_exclusive : ∀ (es : List Env) (t : Bool) (f : Fin 8 → Driver),
    fleetWInv f → exclusiveGroups f → ∀ n : ℕ,
    exclusiveGroups (applyOps f ((ticksOps t es).take n))
  | [], t, f, _, hI, n => by simpa [ticksOps] using hI
  | e :: es, t, f, hW, hI, n => by
      rw [show ticksOps t (e :: es) = rotationOps t e ++ ticksOps t es from rfl,
        List.take_append_eq_append_take, applyOps_append]
      by_cases hn : n ≤ (rotationOps t e).length
      · rw [Nat.sub_eq_zero_of_le hn, List.take_zero]
        exact rotation_take_exclusive t e f hW hI n
      · rw [List.take_of_length_le (le_of_not_le hn)]
        exact ticks_take_exclusive es t (applyOps f (rotationOps t e))
          (fleetWInv_applyOps _ f hW) (rotation_full_exclusive t e f hW hI) _

lemma initFleet_wInv (sn : Fin 8 → String) : fleetWInv (initFleet sn) :=
  fun _ _ => Or.inl rfl

lemma startup_take_keeps_B (sn : Fin 8 → String) (e : Env) (n : ℕ) :
    allInactive (applyOps (initFleet sn) ((startupOps e).take n)) groupB := by
  refine allInactive_untouched _ _ groupB ?_ (fun _ _ => Or.inl rfl)
  intro op hop
  rcases List.mem_map.mp (List.mem_of_mem_take hop) with ⟨j, hj, rfl⟩
  simpa [opIndex] using (by decide : ∀ i ∈ groupA, i ∉ groupB) j hj

end CameraTester

namespace CameraTester

/-! ### Claim theorems: driver level -/

/-- C4: for every driver created fresh and driven by any sequence of
`start`/`stop` calls, every prefix of the resulting spawn/join event trace
leaves at most one live capture worker; in particular `start()` immediately
followed by `start()` never yields two concurrent workers, since `start`
first performs the full `stop()` (join) of any existing worker. -/
theorem driver_at_most_one_worker (s : String) (cs : List DriverCall) (n : ℕ) :
    liveWorkers ((traceEvents (initDriver s) cs).take n) ≤ 1 := by
  have h := trace_bound cs (initDriver s) n
  simpa [initDriver, workerCount] using h

/-- C7: a device-open failure during `start(block_until_ready=true)` leaves
the driver in state ERROR, and the state observed by the polling wait loop
is not STARTING, so the loop's exit condition holds and `start` returns. -/
theorem start_openFail_errors (d : Driver) :
    (start d WorkerOutcome.openFail).state = State.error ∧
    workerReadyState WorkerOutcome.openFail ≠ State.starting := by
  constructor
  · simp [start, workerReadyState]
  · simp [workerReadyState]

/-- C8: `stop()` on a driver that is OFF with no live worker is a no-op:
the whole driver value, hence every observable field, is unchanged. -/
theorem stop_off_noop (d : Driver) (_hs : d.state = State.off) (hw : d.worker = none) :
    stop d = d := by
  simp [stop, hw]

/-- Witness for C8 at a concrete already-stopped driver. -/
theorem stop_off_noop_witness :
    (initDriver "cam8").state = State.off ∧ (initDriver "cam8").worker = none ∧
    stop (initDriver "cam8") = initDriver "cam8" :=
  ⟨rfl, rfl, stop_off_noop (initDriver "cam8") rfl rfl⟩

/-- C2 counterexample: a driver whose worker failed to open its device is in
ERROR with a finished (still joinable) thread; `stop()` joins the thread but
leaves the state ERROR, not OFF, refuting "stop() always returns with
state == OFF regardless of prior state". -/
theorem stop_error_not_off :
    (stop (start (initDriver "cam2") WorkerOutcome.openFail)).state = State.error ∧
    State.error ≠ State.off := by
  constructor
  · rfl
  · simp

/-- C2 amended: when `stop()` is called on a driver holding a worker, it
returns with no worker thread alive and `interrupt_requested` cleared, and
the state is OFF exactly when the worker exits its capture loop normally
(interrupt-driven exit); a worker that terminated with an error leaves the
driver in ERROR. -/
theorem stop_joins_worker (d : Driver) (o : WorkerOutcome) (h : d.worker = some o) :
    (stop d).worker = none ∧ (stop d).interruptRequested = false ∧
    ((stop d).state = State.off ↔ o = WorkerOutcome.runThenExit) := by
  refine ⟨by simp [stop, h], by simp [stop, h], ?_⟩
  cases o <;> simp [stop, h, workerFinalState]

/-- Witness for C2's amended theorem at a concrete running driver. -/
theorem stop_joins_worker_witness :
    (start (initDriver "cam2b") WorkerOutcome.runThenExit).worker =
      some WorkerOutcome.runThenExit ∧
    (stop (start (initDriver "cam2b") WorkerOutcome.runThenExit)).worker = none ∧
    (stop (start (initDriver "cam2b") WorkerOutcome.runThenExit)).state = State.off :=
  ⟨rfl, (stop_joins_worker _ _ rfl).1,
    ((stop_joins_worker (start (initDriver "cam2b") WorkerOutcome.runThenExit)
      WorkerOutcome.runThenExit rfl).2.2).mpr rfl⟩

/-- C5: processing one observed depth-frame sequence number updates
`last_frame_number` to the observed value in all cases; it increments
`frame_counter` by exactly one iff the value is strictly greater than
`last_frame_number`, and emits exactly one frame-number-reset anomaly log
iff the value is strictly smaller (equal values do neither). -/
theorem processFrame_policy (s : CaptureLocals) (n : Int) :
    (processFrame s n).1.lastFrameNumber = n ∧
    (processFrame s n).1.frameCounter =
      s.frameCounter + (if s.lastFrameNumber < n then 1 else 0) ∧
    (processFrame s n).2 = (if n < s.lastFrameNumber then 1 else 0) := by
  unfold processFrame
  rcases lt_trichotomy s.lastFrameNumber n with h | h | h
  · have h1 : ¬ n < s.lastFrameNumber := by omega
    simp [h, h1]
  · have h1 : ¬ s.lastFrameNumber < n := by omega
    have h2 : ¬ n < s.lastFrameNumber := by omega
    simp [h, h1, h2]
  · have h1 : ¬ s.lastFrameNumber < n := by omega
    simp [h, h1]

/-- C9: `last_frame_number` starts at 0, so a first depth frame with
sequence number 0 hits the "equal" branch: `frame_counter` is not
incremented and no frame-number-reset anomaly is logged. -/
theorem first_frame_zero_is_duplicate :
    (processFrame initCaptureLocals 0).1.frameCounter = initCaptureLocals.frameCounter ∧
    (processFrame initCaptureLocals 0).2 = 0 ∧
    (processFrame initCaptureLocals 0).1.lastFrameNumber = 0 := by
  refine ⟨rfl, rfl, rfl⟩

/-- C6 counterexample: with `frame_counter = 30` and elapsed time exactly
1.0 second since the last throttled log, the throttle condition
`time_since_last_log.count() > 1` is false, so the log does not fire and no
FPS value is logged at all. -/
theorem throttle_not_fired_at_one_second :
    (throttleStep 30 0 1).fired = false ∧ (throttleStep 30 0 1).fps = none := by
  constructor <;> norm_num [throttleStep]

/-- C6 amended: the throttled log fires only when the elapsed time since the
last throttled log strictly exceeds 1 second, and then the logged FPS equals
`frame_counter / elapsed` (with `frame_counter = 30` this is `30 / elapsed`,
strictly below 30.0); after each such log `frame_counter` is reset to 0 and
the log timer is reset to the current time. -/
theorem throttle_fire_spec (c : Int) (t now : ℚ) (h : now - t > 1) :
    (throttleStep c t now).fired = true ∧
    (throttleStep c t now).fps = some ((c : ℚ) / (now - t)) ∧
    (throttleStep c t now).frameCounter = 0 ∧
    (throttleStep c t now).tpLastLogged = now := by
  simp [throttleStep, h]

/-- Witness for C6's amended theorem: 30 frames over 2 elapsed seconds fire
a log of 15 FPS and reset counter and timer. -/
theorem throttle_fire_spec_witness :
    ((2 : ℚ) - 0 > 1) ∧
    ((throttleStep 30 0 2).fired = true ∧
     (throttleStep 30 0 2).fps = some (((30 : Int) : ℚ) / (2 - 0)) ∧
     (throttleStep 30 0 2).frameCounter = 0 ∧
     (throttleStep 30 0 2).tpLastLogged = 2) :=
  ⟨by norm_num, throttle_fire_spec 30 0 2 (by norm_num)⟩

/-! ### Claim theorems: fleet level -/

/-- C10: `main` subscripts the `drivers` vector exactly at indices 0..7
(initial start 0..3, rotation bodies over 0..3 and 4..7), and all of these
accesses are in bounds precisely when at least 8 devices were enumerated. -/
theorem main_accesses_in_bounds_iff (n : ℕ) :
    (∀ i ∈ mainAccessedIndices, i < n) ↔ 8 ≤ n := by
  constructor
  · intro h
    have h7 : (7 : ℕ) ∈ mainAccessedIndices := by decide
    have := h 7 h7
    omega
  · intro h i hi
    have h8 : ∀ j ∈ mainAccessedIndices, j < 8 := by decide
    have := h8 i hi
    omega

/-- C1: the rotation never alternates back.  With every device healthy, run
the fleet through the initial start and two elapsed rotation intervals.  The
claim says that after the second interval group B is OFF and group A is
active again; in fact `toggle` is still `true` (line 257 is the no-op
comparison `toggle != toggle;`), driver 0 (group A) is still OFF and driver
4 (group B) is still RUNNING. -/
theorem rotation_never_alternates :
    (rotationTick (rotationTick
        (fleetStartup (fun _ => "cam") (fun _ => WorkerOutcome.runThenExit))
        (fun _ => WorkerOutcome.runThenExit))
        (fun _ => WorkerOutcome.runThenExit)).toggle = true ∧
    ((rotationTick (rotationTick
        (fleetStartup (fun _ => "cam") (fun _ => WorkerOutcome.runThenExit))
        (fun _ => WorkerOutcome.runThenExit))
        (fun _ => WorkerOutcome.runThenExit)).drivers 0).state = State.off ∧
    ((rotationTick (rotationTick
        (fleetStartup (fun _ => "cam") (fun _ => WorkerOutcome.runThenExit))
        (fun _ => WorkerOutcome.runThenExit))
        (fun _ => WorkerOutcome.runThenExit)).drivers 4).state = State.running := by
  refine ⟨rfl, ?_, ?_⟩ <;> decide

/-- C3 counterexample: if device 0 fails to open during the initial start
(its driver ends in ERROR) and one rotation interval then elapses, group B is
started (driver 4 RUNNING) while driver 0 of group A is still in ERROR — not
OFF, contradicting "every Driver of the other group is in state OFF". -/
theorem error_survives_rotation :
    (((rotationTick
        (fleetStartup (fun _ => "cam3")
          (fun i => if i = 0 then WorkerOutcome.openFail else WorkerOutcome.runThenExit))
        (fun _ => WorkerOutcome.runThenExit)).drivers 4).state = State.running) ∧
    (((rotationTick
        (fleetStartup (fun _ => "cam3")
          (fun i => if i = 0 then WorkerOutcome.openFail else WorkerOutcome.runThenExit))
        (fun _ => WorkerOutcome.runThenExit)).drivers 0).state = State.error) ∧
    State.error ≠ State.off := by
  refine ⟨?_, ?_, by simp⟩ <;> decide

/-- C3 amended: at any instant during fleet operation — i.e. after every
prefix of the driver calls `main` makes, for every device environment — at
most one of the two fixed groups has drivers in state RUNNING or STARTING:
every driver of the other group is OFF or ERROR.  (The original "the other
group is OFF" fails because `stop()` leaves a failed driver in ERROR.) -/
theorem rotation_groups_exclusive (sn : Fin 8 → String) (envs : List Env) (n : ℕ) :
    exclusiveGroups (applyOps (initFleet sn) ((mainOps envs).take n)) := by
  cases envs with
  | nil =>
      rw [show mainOps [] = [] from rfl, List.take_nil]
      exact Or.inr (fun _ _ => Or.inl rfl)
  | cons e es =>
      rw [show mainOps (e :: es) = startupOps e ++ ticksOps true es from rfl,
        List.take_append_eq_append_take, applyOps_append]
      by_cases hn : n ≤ (startupOps e).length
      · rw [Nat.sub_eq_zero_of_le hn, List.take_zero]
        exact Or.inr (startup_take_keeps_B sn e n)
      · rw [List.take_of_length_le (le_of_not_le hn)]
        refine ticks_take_exclusive es true _ ?_ ?_ _
        · exact fleetWInv_applyOps _ _ (initFleet_wInv sn)
        · have h := startup_take_keeps_B sn e (startupOps e).length
          rw [List.take_length] at h
          exact Or.inr h

end CameraTester
